import Mathlib

/-!
# AdGuardHome Pushover notification dispatcher: verified model

A shallow embedding of the rate-limited notification dispatcher in
`internal/dnsforward/notifications.go` and of the filter-column logic of
`internal/querylog/mysql.go`, together with theorems checking the
specification's claims against it.

Conventions:
* Go `time.Time` instants and `time.Duration` values are modelled as `Int`
  nanoseconds (`time.Duration` is an `int64` nanosecond count; `t.Sub(u)` is
  modelled as `t - u`, `t.Before(u)` as `t < u`).
* Go's `time.Now()` is made explicit: every state-changing operation takes the
  current instant `now` as an argument and returns the updated state.
* The Go map `map[string]time.Time` is modelled as an association list;
  `m[k] = v` replaces the binding of `k` (or appends it), and `delete` inside
  `cleanup`'s range loop becomes a filter.
* Go integer division on `time.Duration` truncates toward zero, hence
  `Int.tdiv` in the interval constructors.
-/

namespace AdGuard

/-- One minute in nanoseconds (`time.Minute`). -/
def nsPerMinute : Int := 60 * 1000000000

/-- Association-list read of the Go map `lastNotified` (`last, ok := m[d]`). -/
def lookupTime : List (String × Int) → String → Option Int
  | [], _ => none
  | (k, v) :: rest, d => if k = d then some v else lookupTime rest d

/-- Association-list write of the Go map `lastNotified` (`m[d] = v`). -/
def setTime : List (String × Int) → String → Int → List (String × Int)
  | [], d, v => [(d, v)]
  | (k, x) :: rest, d, v =>
      if k = d then (d, v) :: rest else (k, x) :: setTime rest d v

/-- `domainRateLimit` from `notifications.go`: per-domain last-notification
times plus the minimum interval between notifications for one domain. -/
structure DomainRateLimit where
  lastNotified : List (String × Int)
  interval : Int
deriving Repr, DecidableEq

/-- The interval computed by `newDomainRateLimit`: 5 minutes, divided by the
configured per-5-minute rate when that rate exceeds 1. -/
def newDomainInterval (perFiveMinutes : Int) : Int :=
  if perFiveMinutes > 1 then Int.tdiv (5 * nsPerMinute) perFiveMinutes
  else 5 * nsPerMinute

/-- `newDomainRateLimit`: empty map, interval per `newDomainInterval`. -/
def newDomainRateLimit (perFiveMinutes : Int) : DomainRateLimit :=
  { lastNotified := [], interval := newDomainInterval perFiveMinutes }

/-- `domainRateLimit.shouldNotify`: deny when a record exists and is younger
than the interval; otherwise record `now` and admit. -/
def DomainRateLimit.shouldNotify (r : DomainRateLimit) (domain : String)
    (now : Int) : Bool × DomainRateLimit :=
  match lookupTime r.lastNotified domain with
  | some last =>
      if now - last < r.interval then (false, r)
      else (true, { r with lastNotified := setTime r.lastNotified domain now })
  | none => (true, { r with lastNotified := setTime r.lastNotified domain now })

/-- `domainRateLimit.cleanup`: drop every entry strictly before
`now - 2 * interval`. -/
def DomainRateLimit.cleanup (r : DomainRateLimit) (now : Int) :
    DomainRateLimit :=
  let cutoff := now + -r.interval * 2
  { r with lastNotified := r.lastNotified.filter fun p => !decide (p.2 < cutoff) }

/-- `globalRateLimit` from `notifications.go`: last time any notification was
sent plus the process-wide minimum interval. -/
structure GlobalRateLimit where
  lastSent : Int
  interval : Int
deriving Repr, DecidableEq

/-- The interval computed by `newGlobalRateLimit`: 1 minute, divided by the
configured per-minute rate when that rate exceeds 1. -/
def newGlobalInterval (perMinute : Int) : Int :=
  if perMinute > 1 then Int.tdiv nsPerMinute perMinute else nsPerMinute

/-- `newGlobalRateLimit`: zero-value `lastSent`, interval per
`newGlobalInterval`. -/
def newGlobalRateLimit (perMinute : Int) : GlobalRateLimit :=
  { lastSent := 0, interval := newGlobalInterval perMinute }

/-- `globalRateLimit.shouldNotify`: deny when the last send is younger than
the interval; otherwise record `now` and admit. -/
def GlobalRateLimit.shouldNotify (r : GlobalRateLimit) (now : Int) :
    Bool × GlobalRateLimit :=
  if now - r.lastSent < r.interval then (false, r)
  else (true, { r with lastSent := now })

/-- `PushoverConfig` from `notifications.go`. -/
structure PushoverConfig where
  AppToken : String
  UserKey : String
  Sound : String
  RateLimitPer5Min : Int
  GlobalRateLimitPerMin : Int
  Priority : Int
deriving Repr, DecidableEq

/-- The mutable state of `PushoverNotifier`: both limiters plus the immutable
configuration (the logger and HTTP client carry no admission state). -/
structure PushoverNotifier where
  domainRateLimit : DomainRateLimit
  globalRateLimit : GlobalRateLimit
  config : PushoverConfig
deriving Repr, DecidableEq

/-- `NewPushoverNotifier`: fresh limiters built from the configured rates. -/
def NewPushoverNotifier (config : PushoverConfig) : PushoverNotifier :=
  { domainRateLimit := newDomainRateLimit config.RateLimitPer5Min
    globalRateLimit := newGlobalRateLimit config.GlobalRateLimitPerMin
    config := config }

/-- `PushoverNotifier.ShouldNotify`: global limiter first; only if it admits
is the per-domain limiter consulted. Returns the admission decision, the
`reason` tag, and the updated notifier state. -/
def PushoverNotifier.ShouldNotify (n : PushoverNotifier) (domain : String)
    (now : Int) : (Bool × String) × PushoverNotifier :=
  let g := n.globalRateLimit.shouldNotify now
  if !g.1 then ((false, "global"), { n with globalRateLimit := g.2 })
  else
    let d := n.domainRateLimit.shouldNotify domain now
    if !d.1 then
      ((false, "domain"),
        { n with globalRateLimit := g.2, domainRateLimit := d.2 })
    else
      ((true, ""), { n with globalRateLimit := g.2, domainRateLimit := d.2 })

/-- `PushoverNotifier.Cleanup`: delegates to the domain limiter's cleanup. -/
def PushoverNotifier.Cleanup (n : PushoverNotifier) (now : Int) :
    PushoverNotifier :=
  { n with domainRateLimit := n.domainRateLimit.cleanup now }

/-- Modelled from the spec: the reason categories of the external `filtering`
package (only its interface is visible from `notifications.go`); the four
constructors matched by `formatTitle` are named verbatim in the source, the
rest enumerate the remaining categories the spec calls "any other". -/
inductive Reason where
  | NotFilteredNotFound
  | NotFilteredAllowList
  | NotFilteredError
  | FilteredBlockList
  | FilteredSafeBrowsing
  | FilteredParental
  | FilteredInvalid
  | FilteredSafeSearch
  | FilteredBlockedService
  | Rewritten
  | RewrittenAutoHosts
  | RewrittenRule
deriving Repr, DecidableEq

/-- Modelled from the spec: a Go `time.Time` instant as seen by the message
formatter, represented by its RFC3339 rendering (the standard-library
formatter is outside this repository). -/
structure GoTime where
  rfc3339 : String
deriving Repr, DecidableEq

/-- `NotificationEvent` from `notifications.go`. -/
structure NotificationEvent where
  Domain : String
  RuleText : String
  ClientIP : String
  ClientID : String
  Reason : Reason
  Timestamp : GoTime
deriving Repr, DecidableEq

/-- `PushoverNotifier.formatTitle`: the four-way switch on the reason. -/
def formatTitle (reason : Reason) : String :=
  match reason with
  | .FilteredBlockList => "AdGuard: Domain Blocked"
  | .NotFilteredAllowList => "AdGuard: Domain Allowed"
  | .Rewritten | .RewrittenRule => "AdGuard: Domain Rewritten"
  | _ => "AdGuard: Custom Rule Match"

/-- `PushoverNotifier.formatMessage`: client descriptor is
`"<id> (<ip>)"` when a client ID is present, the IP alone otherwise;
the timestamp is rendered in RFC3339. -/
def formatMessage (event : NotificationEvent) : String :=
  let clientInfo :=
    if event.ClientID ≠ "" then
      event.ClientID ++ " (" ++ event.ClientIP ++ ")"
    else event.ClientIP
  "Domain: " ++ event.Domain ++ "\nClient: " ++ clientInfo ++ "\nTime: " ++
    event.Timestamp.rfc3339

/-- The form fields assembled by `PushoverNotifier.send` before the POST:
`token`, `user`, `title`, `message` always; `priority` only when non-zero;
`sound` only when non-empty. -/
def sendFormFields (config : PushoverConfig) (title message : String) :
    List (String × String) :=
  let data := [("token", config.AppToken), ("user", config.UserKey),
               ("title", title), ("message", message)]
  let data :=
    if config.Priority ≠ 0 then data ++ [("priority", toString config.Priority)]
    else data
  if config.Sound ≠ "" then data ++ [("sound", config.Sound)] else data

/-- Whether a field named `k` is present in the assembled form data. -/
def hasField (data : List (String × String)) (k : String) : Bool :=
  data.any fun p => p.1 == k

/-- Outcome of the HTTP round-trip performed by `send`: either
`n.client.Do` fails at the transport level, or a response with some status
code comes back. -/
inductive HTTPOutcome where
  | transportError
  | response (statusCode : Int)
deriving Repr, DecidableEq

/-- Whether `PushoverNotifier.send` returns an error for a given HTTP
outcome: a transport error, or a status different from `http.StatusOK`
(exactly 200). -/
def sendFails : HTTPOutcome → Bool
  | .transportError => true
  | .response code => code != 200

/-- The 2xx success range as the spec words it ("any non-2xx status ... is a
failure"), kept separate from `sendFails` so the two can be compared. -/
def specIs2xx (code : Int) : Bool :=
  decide (200 ≤ code) && decide (code < 300)

/-- The fields of `filtering.Result` read by `mysqlClient.insertEntry`:
`IsFiltered`, `Reason` (an integer code), the texts of the matched rules,
and `ServiceName`. -/
structure FilteringResult where
  IsFiltered : Bool
  Reason : Int
  Rules : List String
  ServiceName : String
deriving Repr, DecidableEq

/-- The `filter_reason`, `filter_rule` and `service_name` column values bound
by `mysqlClient.insertEntry`: `none` stands for SQL NULL (a nil pointer). -/
def insertEntryFilterColumns (result : FilteringResult) :
    Option Int × Option String × Option String :=
  if result.IsFiltered then
    (some result.Reason,
     match result.Rules with
     | [] => none
     | t :: _ => some t,
     if result.ServiceName ≠ "" then some result.ServiceName else none)
  else (none, none, none)

/-- `s` contains `sub` as a contiguous substring. -/
def containsStr (s sub : String) : Prop :=
  ∃ a b, s = a ++ sub ++ b

/-! ## Helper lemmas -/

/-- Reading back the key just written returns the written value. -/
theorem lookupTime_setTime_self (l : List (String × Int)) (d : String)
    (v : Int) : lookupTime (setTime l d v) d = some v := by
  induction l with
  | nil => simp [setTime, lookupTime]
  | cons p rest ih =>
      obtain ⟨k, x⟩ := p
      by_cases h : k = d <;> simp [setTime, lookupTime, h, ih]

/-- Writing one key leaves every other key's binding unchanged. -/
theorem lookupTime_setTime_ne (l : List (String × Int)) (d d' : String)
    (v : Int) (h : d' ≠ d) :
    lookupTime (setTime l d v) d' = lookupTime l d' := by
  induction l with
  | nil =>
      have hdd' : ¬(d = d') := fun hh => h hh.symm
      simp [setTime, lookupTime, hdd']
  | cons p rest ih =>
      obtain ⟨k, x⟩ := p
      by_cases hk : k = d
      · have hkd' : ¬(k = d') := fun hh => h (hh ▸ hk)
        have hdd' : ¬(d = d') := fun hh => h hh.symm
        simp [setTime, lookupTime, hk, hkd', hdd']
      · by_cases hk' : k = d' <;> simp [setTime, lookupTime, hk, hk', ih, h]

/-- Truncated division of positive integers is positive when the divisor is
no larger than the dividend. -/
theorem tdiv_pos_of_le {a c : Int} (hc : 0 < c) (hca : c ≤ a) :
    0 < Int.tdiv a c := by
  rcases Int.eq_ofNat_of_zero_le (le_trans (le_of_lt hc) hca) with ⟨m, rfl⟩
  rcases Int.eq_ofNat_of_zero_le (le_of_lt hc) with ⟨n, rfl⟩
  have hn : 0 < n := by exact_mod_cast hc
  have hle : n ≤ m := by exact_mod_cast hca
  have h2 : 0 < m / n := Nat.div_pos hle hn
  show Int.ofNat 0 < Int.ofNat (m / n)
  exact Int.ofNat_lt.mpr h2

/-- On nonnegative integers truncated division agrees with Euclidean
division. -/
theorem tdiv_eq_ediv_of_nonneg {a c : Int} (ha : 0 ≤ a) (hc : 0 ≤ c) :
    Int.tdiv a c = a / c := by
  rcases Int.eq_ofNat_of_zero_le ha with ⟨m, rfl⟩
  rcases Int.eq_ofNat_of_zero_le hc with ⟨n, rfl⟩
  rfl

/-! ## Claims -/

/-- C1: when the global limiter denies (the last global send is younger than
the global interval), `Dispatcher.ShouldNotify` returns `(false, "global")`
and the notifier state — in particular the whole per-domain map, including
the requested domain's stored timestamp — is left completely unchanged, so a
domain repeatedly requested while the global gate is closed never advances
its own per-domain window. -/
theorem shouldNotify_global_denied (n : PushoverNotifier) (d : String)
    (now : Int)
    (h : now - n.globalRateLimit.lastSent < n.globalRateLimit.interval) :
    n.ShouldNotify d now = ((false, "global"), n) := by
  simp [PushoverNotifier.ShouldNotify, GlobalRateLimit.shouldNotify, h]

/-- Witness for C1 at a concrete closed state. -/
theorem shouldNotify_global_denied_witness :
    PushoverNotifier.ShouldNotify
        ⟨newDomainRateLimit 1, ⟨0, nsPerMinute⟩, ⟨"t", "u", "", 1, 1, 0⟩⟩
        "a.com" 5
      = ((false, "global"),
          ⟨newDomainRateLimit 1, ⟨0, nsPerMinute⟩, ⟨"t", "u", "", 1, 1, 0⟩⟩) :=
  shouldNotify_global_denied _ "a.com" 5 (by decide)

/-- `shouldNotify` computed when the domain has no record. -/
theorem shouldNotify_of_none {r : DomainRateLimit} {d : String} (now : Int)
    (hl : lookupTime r.lastNotified d = none) :
    r.shouldNotify d now =
      (true, { r with lastNotified := setTime r.lastNotified d now }) := by
  unfold DomainRateLimit.shouldNotify
  rw [hl]

/-- `shouldNotify` computed when the record is younger than the interval. -/
theorem shouldNotify_of_young {r : DomainRateLimit} {d : String} {now : Int}
    {last : Int} (hl : lookupTime r.lastNotified d = some last)
    (hc : now - last < r.interval) :
    r.shouldNotify d now = (false, r) := by
  unfold DomainRateLimit.shouldNotify
  rw [hl]
  simp [hc]

/-- `shouldNotify` computed when the record is at least one interval old. -/
theorem shouldNotify_of_old {r : DomainRateLimit} {d : String} {now : Int}
    {last : Int} (hl : lookupTime r.lastNotified d = some last)
    (hc : ¬now - last < r.interval) :
    r.shouldNotify d now =
      (true, { r with lastNotified := setTime r.lastNotified d now }) := by
  unfold DomainRateLimit.shouldNotify
  rw [hl]
  simp [hc]

/-- C2: `domainRateLimit.shouldNotify` admits and stamps `now` onto the
domain exactly when the domain has no record or its record is at least
`interval` old; every other entry keeps its binding, and on denial the whole
state is unchanged. -/
theorem domain_shouldNotify_spec (r : DomainRateLimit) (d : String)
    (now : Int) :
    ((r.shouldNotify d now).1 = true ↔
      lookupTime r.lastNotified d = none ∨
        ∃ last, lookupTime r.lastNotified d = some last ∧
          r.interval ≤ now - last) ∧
    ((r.shouldNotify d now).1 = true →
      lookupTime (r.shouldNotify d now).2.lastNotified d = some now ∧
      (∀ d', d' ≠ d →
        lookupTime (r.shouldNotify d now).2.lastNotified d' =
          lookupTime r.lastNotified d') ∧
      (r.shouldNotify d now).2.interval = r.interval) ∧
    ((r.shouldNotify d now).1 = false → (r.shouldNotify d now).2 = r) := by
  rcases hl : lookupTime r.lastNotified d with _ | last
  · rw [shouldNotify_of_none now hl]
    refine ⟨by simp, fun _ => ?_, by simp⟩
    exact ⟨lookupTime_setTime_self _ _ _,
      fun d' hd' => lookupTime_setTime_ne _ _ _ _ hd', rfl⟩
  · by_cases hc : now - last < r.interval
    · rw [shouldNotify_of_young hl hc]
      refine ⟨?_, by simp, fun _ => rfl⟩
      constructor
      · intro habs
        simp at habs
      · rintro (hnone | ⟨last', hlast', hge⟩)
        · cases hnone
        · cases hlast'
          exact absurd hge (not_le.mpr hc)
    · rw [shouldNotify_of_old hl hc]
      refine ⟨?_, fun _ => ?_, by simp⟩
      · simp only [true_iff]
        exact Or.inr ⟨last, rfl, by omega⟩
      · exact ⟨lookupTime_setTime_self _ _ _,
          fun d' hd' => lookupTime_setTime_ne _ _ _ _ hd', rfl⟩

/-- Witness for C2 at a concrete state: domain present, old enough. -/
theorem domain_shouldNotify_spec_witness :
    lookupTime
        ((DomainRateLimit.shouldNotify ⟨[("a", 0)], 100⟩ "a" 100).2).lastNotified
        "a" = some 100 :=
  ((domain_shouldNotify_spec ⟨[("a", 0)], 100⟩ "a" 100).2.1 (by decide)).1

/-- C3: for a domain-tier rate above 1 the domain interval is 5 minutes
divided by the rate, otherwise exactly 5 minutes (so rates 0 and 1 coincide
and rate 5 gives exactly 1 minute); the global interval follows the same
pattern with a 1-minute base. -/
theorem rate_intervals_formula :
    (∀ r : Int, 1 < r → newDomainInterval r = 5 * nsPerMinute / r) ∧
    (∀ r : Int, r ≤ 1 → newDomainInterval r = 5 * nsPerMinute) ∧
    newDomainInterval 0 = 5 * nsPerMinute ∧
    newDomainInterval 1 = 5 * nsPerMinute ∧
    newDomainInterval 5 = nsPerMinute ∧
    (∀ g : Int, 1 < g → newGlobalInterval g = nsPerMinute / g) ∧
    (∀ g : Int, g ≤ 1 → newGlobalInterval g = nsPerMinute) := by
  refine ⟨fun r hr => ?_, fun r hr => ?_, by decide, by decide, by decide,
    fun g hg => ?_, fun g hg => ?_⟩
  · rw [newDomainInterval, if_pos hr]
    exact tdiv_eq_ediv_of_nonneg (by decide) (by omega)
  · rw [newDomainInterval, if_neg (by omega)]
  · rw [newGlobalInterval, if_pos hg]
    exact tdiv_eq_ediv_of_nonneg (by decide) (by omega)
  · rw [newGlobalInterval, if_neg (by omega)]

/-- Witness for C3 at concrete rates 2 (domain) and 3 (global). -/
theorem rate_intervals_formula_witness :
    newDomainInterval 2 = 5 * nsPerMinute / 2 ∧
      newGlobalInterval 3 = nsPerMinute / 3 :=
  ⟨rate_intervals_formula.1 2 (by decide),
    rate_intervals_formula.2.2.2.2.2.1 3 (by decide)⟩

/-- C4: `cleanup` keeps the interval and keeps an entry `(d, t)` exactly when
its age `now - t` is at most `2 * interval`; every kept entry keeps its
timestamp, and entries strictly older are deleted. -/
theorem cleanup_spec (r : DomainRateLimit) (now : Int) :
    (r.cleanup now).interval = r.interval ∧
    ∀ d t, ((d, t) ∈ (r.cleanup now).lastNotified ↔
      (d, t) ∈ r.lastNotified ∧ ¬(2 * r.interval < now - t)) := by
  refine ⟨rfl, fun d t => ?_⟩
  simp only [DomainRateLimit.cleanup, List.mem_filter, Bool.not_eq_true',
    decide_eq_false_iff_not]
  constructor
  · rintro ⟨hm, hp⟩
    exact ⟨hm, by omega⟩
  · rintro ⟨hm, hp⟩
    exact ⟨hm, by omega⟩

/-- C5 counterexample: status 204 lies in the 2xx range, yet `send` treats it
as a failure (the code compares against exactly 200, not the 2xx range). -/
theorem send_rejects_status_204 :
    sendFails (HTTPOutcome.response 204) = true ∧ specIs2xx 204 = true := by
  decide

/-- C5 amended: `send` fails exactly on a transport-level error or a status
code different from 200; any other status, 2xx ones included, is a
failure. -/
theorem sendFails_iff (o : HTTPOutcome) :
    sendFails o = true ↔
      o = HTTPOutcome.transportError ∨
        ∃ c, o = HTTPOutcome.response c ∧ c ≠ 200 := by
  cases o with
  | transportError => simp [sendFails]
  | response c => simp [sendFails, bne_iff_ne]

/-- C6: the title ends in "Blocked" for a blocklist match, "Allowed" for an
allowlist match, "Rewritten" for both rewrite categories, and is
"AdGuard: Custom Rule Match" for every other reason. -/
theorem formatTitle_cases :
    (∃ p, formatTitle Reason.FilteredBlockList = p ++ "Blocked") ∧
    (∃ p, formatTitle Reason.NotFilteredAllowList = p ++ "Allowed") ∧
    (∃ p, formatTitle Reason.Rewritten = p ++ "Rewritten") ∧
    (∃ p, formatTitle Reason.RewrittenRule = p ++ "Rewritten") ∧
    ∀ r, r ≠ Reason.FilteredBlockList → r ≠ Reason.NotFilteredAllowList →
      r ≠ Reason.Rewritten → r ≠ Reason.RewrittenRule →
      formatTitle r = "AdGuard: Custom Rule Match" := by
  refine ⟨⟨"AdGuard: Domain ", rfl⟩, ⟨"AdGuard: Domain ", rfl⟩,
    ⟨"AdGuard: Domain ", rfl⟩, ⟨"AdGuard: Domain ", rfl⟩, ?_⟩
  intro r h1 h2 h3 h4
  cases r <;> first | rfl | simp_all

/-- Witness for C6's default bucket at a concrete reason. -/
theorem formatTitle_cases_witness :
    formatTitle Reason.FilteredSafeBrowsing = "AdGuard: Custom Rule Match" :=
  formatTitle_cases.2.2.2.2 Reason.FilteredSafeBrowsing (by decide) (by decide)
    (by decide) (by decide)

/-- C7: the message body contains the domain, the RFC3339-rendered timestamp,
the descriptor `"<id> (<ip>)"` when the client ID is non-empty, and the IP
alone between the `Client:` and `Time:` labels when it is empty. -/
theorem formatMessage_spec (e : NotificationEvent) :
    containsStr (formatMessage e) e.Domain ∧
    containsStr (formatMessage e) e.Timestamp.rfc3339 ∧
    (e.ClientID ≠ "" →
      containsStr (formatMessage e) (e.ClientID ++ " (" ++ e.ClientIP ++ ")")) ∧
    (e.ClientID = "" →
      containsStr (formatMessage e)
        ("\nClient: " ++ e.ClientIP ++ "\nTime: ")) := by
  by_cases h : e.ClientID = ""
  · have hm : formatMessage e =
        "Domain: " ++ e.Domain ++ "\nClient: " ++ e.ClientIP ++ "\nTime: " ++
          e.Timestamp.rfc3339 := by
      simp [formatMessage, h]
    refine ⟨⟨"Domain: ",
        "\nClient: " ++ e.ClientIP ++ "\nTime: " ++ e.Timestamp.rfc3339, ?_⟩,
      ⟨"Domain: " ++ e.Domain ++ "\nClient: " ++ e.ClientIP ++ "\nTime: ",
        "", ?_⟩,
      fun hne => absurd h hne,
      fun _ => ⟨"Domain: " ++ e.Domain, e.Timestamp.rfc3339, ?_⟩⟩ <;>
    simp [hm, String.append_assoc, String.append_empty]
  · have hm : formatMessage e =
        "Domain: " ++ e.Domain ++ "\nClient: " ++
          (e.ClientID ++ " (" ++ e.ClientIP ++ ")") ++ "\nTime: " ++
          e.Timestamp.rfc3339 := by
      simp [formatMessage, h]
    refine ⟨⟨"Domain: ",
        "\nClient: " ++ (e.ClientID ++ " (" ++ e.ClientIP ++ ")") ++
          "\nTime: " ++ e.Timestamp.rfc3339, ?_⟩,
      ⟨"Domain: " ++ e.Domain ++ "\nClient: " ++
          (e.ClientID ++ " (" ++ e.ClientIP ++ ")") ++ "\nTime: ", "", ?_⟩,
      fun _ => ⟨"Domain: " ++ e.Domain ++ "\nClient: ",
        "\nTime: " ++ e.Timestamp.rfc3339, ?_⟩,
      fun heq => absurd heq h⟩ <;>
    (simp [hm, String.append_assoc, String.append_empty]; try rfl)

/-- Witness for C7 at a concrete event with a non-empty client ID. -/
theorem formatMessage_spec_witness :
    containsStr
      (formatMessage ⟨"d.com", "||d^", "1.2.3.4", "cid",
        Reason.FilteredBlockList, ⟨"2026-01-01T00:00:00Z"⟩⟩)
      ("cid" ++ " (" ++ "1.2.3.4" ++ ")") :=
  (formatMessage_spec ⟨"d.com", "||d^", "1.2.3.4", "cid",
    Reason.FilteredBlockList, ⟨"2026-01-01T00:00:00Z"⟩⟩).2.2.1 (by decide)

/-- C8: the assembled form data always carries `token`, `user`, `title` and
`message`; it carries `priority` exactly when the configured priority is
non-zero and `sound` exactly when the configured sound is non-empty. -/
theorem sendFormFields_spec (config : PushoverConfig) (title message : String) :
    hasField (sendFormFields config title message) "token" = true ∧
    hasField (sendFormFields config title message) "user" = true ∧
    hasField (sendFormFields config title message) "title" = true ∧
    hasField (sendFormFields config title message) "message" = true ∧
    (hasField (sendFormFields config title message) "priority" = true ↔
      config.Priority ≠ 0) ∧
    (hasField (sendFormFields config title message) "sound" = true ↔
      config.Sound ≠ "") := by
  by_cases hp : config.Priority = 0 <;> by_cases hs : config.Sound = "" <;>
    simp [sendFormFields, hasField, hp, hs]

/-- C9 counterexample: a domain-tier rate exceeding the 5-minute base
expressed in nanoseconds passes the `> 1` guard and the truncated division
yields a zero interval, so "no constructed limiter ever has a zero or
negative interval" fails as stated. -/
theorem domainInterval_zero_for_huge_rate :
    newDomainInterval 300000000001 = 0 ∧ (1 : Int) < 300000000001 := by
  decide

/-- C9 amended: for every rate at most 1 (0 and negatives included) the
constructors never divide and return exactly the 5-minute and 1-minute
bases; the division is guarded for all integer inputs, no interval is ever
negative, and the interval is positive whenever the rate does not exceed the
base interval in nanoseconds. -/
theorem rate_division_guarded (r : Int) :
    (r ≤ 1 → newDomainInterval r = 5 * nsPerMinute ∧
      newGlobalInterval r = nsPerMinute) ∧
    0 ≤ newDomainInterval r ∧ 0 ≤ newGlobalInterval r ∧
    (r ≤ 5 * nsPerMinute → 0 < newDomainInterval r) ∧
    (r ≤ nsPerMinute → 0 < newGlobalInterval r) := by
  by_cases hr : 1 < r
  · refine ⟨fun h => absurd h (by omega), ?_, ?_, fun h => ?_, fun h => ?_⟩
    · rw [newDomainInterval, if_pos hr]
      exact Int.tdiv_nonneg (by decide) (by omega)
    · rw [newGlobalInterval, if_pos hr]
      exact Int.tdiv_nonneg (by decide) (by omega)
    · rw [newDomainInterval, if_pos hr]
      exact tdiv_pos_of_le (by omega) h
    · rw [newGlobalInterval, if_pos hr]
      exact tdiv_pos_of_le (by omega) h
  · have h1 : newDomainInterval r = 5 * nsPerMinute := by
      rw [newDomainInterval, if_neg hr]
    have h2 : newGlobalInterval r = nsPerMinute := by
      rw [newGlobalInterval, if_neg hr]
    refine ⟨fun _ => ⟨h1, h2⟩, ?_, ?_, fun _ => ?_, fun _ => ?_⟩
    · rw [h1]; decide
    · rw [h2]; decide
    · rw [h1]; decide
    · rw [h2]; decide

/-- Witness for C9's amended statement at the rates 0 and -3. -/
theorem rate_division_guarded_witness :
    (newDomainInterval 0 = 5 * nsPerMinute ∧
      newGlobalInterval 0 = nsPerMinute) ∧
    (newDomainInterval (-3) = 5 * nsPerMinute ∧
      newGlobalInterval (-3) = nsPerMinute) ∧
    0 < newDomainInterval 1 :=
  ⟨(rate_division_guarded 0).1 (by decide),
    (rate_division_guarded (-3)).1 (by decide),
    (rate_division_guarded 1).2.2.2.1 (by decide)⟩

/-- C10: when `Result.IsFiltered` is false the `filter_reason`,
`filter_rule` and `service_name` columns are all NULL regardless of matched
rules or service name; each column is non-NULL only when `IsFiltered` is
true and the corresponding datum is present. -/
theorem insertEntry_filter_columns_spec (result : FilteringResult) :
    (result.IsFiltered = false →
      insertEntryFilterColumns result = (none, none, none)) ∧
    ((insertEntryFilterColumns result).1 ≠ none →
      result.IsFiltered = true) ∧
    ((insertEntryFilterColumns result).2.1 ≠ none →
      result.IsFiltered = true ∧ result.Rules ≠ []) ∧
    ((insertEntryFilterColumns result).2.2 ≠ none →
      result.IsFiltered = true ∧ result.ServiceName ≠ "") := by
  cases hf : result.IsFiltered
  · simp [insertEntryFilterColumns, hf]
  · refine ⟨?_, ?_, ?_, ?_⟩
    · intro h
      cases h
    · intro _
      rfl
    · intro h
      refine ⟨rfl, ?_⟩
      cases hr : result.Rules with
      | nil => simp [insertEntryFilterColumns, hf, hr] at h
      | cons t ts => simp
    · intro h
      refine ⟨rfl, ?_⟩
      by_cases hs : result.ServiceName = ""
      · simp [insertEntryFilterColumns, hf, hs] at h
      · exact hs

/-- Witness for C10 at a concrete unfiltered entry that nevertheless has a
matched rule and a service name. -/
theorem insertEntry_filter_columns_spec_witness :
    insertEntryFilterColumns ⟨false, 3, ["||example^"], "svc"⟩ =
      (none, none, none) :=
  (insertEntry_filter_columns_spec ⟨false, 3, ["||example^"], "svc"⟩).1 rfl

end AdGuard
